import Mathlib

/-!
Shallow embedding of the Transactional Order Pricing & Inventory Settlement
Engine of `src/app.py` (single-file Flask grocery POS).

The program computes money with Python `Decimal` and quantizes every
monetary value to two decimal places with `ROUND_HALF_UP` (`money`,
`src/app.py` lines 41-45).  A two-decimal `Decimal` is a scaled integer, so
the embedding represents
  * monetary amounts as an integer number of cents (`ℤ`, column type
    `Numeric(10,2)` / `Numeric(12,2)`),
  * percentage rates as an integer number of hundredths of a percent
    (`ℤ`, column type `Numeric(5,2)`),
  * quantities as `ℤ`.
Intermediate values of the engine's arithmetic are exact rationals; every
call of the source's `money(x)` becomes `money n d` below, where `n / d` is
the exact rational value of `x` in currency units and the result is the
rounded amount in cents.  `Decimal` division at the default context (28
significant digits) is idealised as exact rational division.

`moneyQ` is the direct transliteration of the source's `money` on `ℚ`;
`money_cast` proves the two agree, so the claim statements can be read
against the specification's formulas on `ℚ`.
-/

/-- Rounding of the rational `n / d` (with `d > 0`) to the nearest integer,
ties away from zero: `Decimal`'s `ROUND_HALF_UP`. -/
def roundHalfUpDiv (n d : ℤ) : ℤ :=
  if 0 ≤ n then (2 * n + d) / (2 * d) else -((2 * (-n) + d) / (2 * d))

/-- Rounding of a rational to the nearest integer, ties away from zero:
`Decimal`'s `ROUND_HALF_UP` on `ℚ`. -/
def roundHalfUpQ (q : ℚ) : ℤ :=
  if 0 ≤ q then ⌊q + 1 / 2⌋ else -⌊-q + 1 / 2⌋

/-- `money` from `src/app.py` line 42, on the cents representation: the
amount of `n / d` currency units, quantized to a whole number of cents with
ROUND_HALF_UP. -/
def money (n d : ℤ) : ℤ :=
  roundHalfUpDiv (100 * n) d

/-- `money` from `src/app.py` line 42, transliterated on `ℚ`: quantize to
two decimal places with ROUND_HALF_UP. -/
def moneyQ (q : ℚ) : ℚ :=
  (roundHalfUpQ (q * 100) : ℚ) / 100

/-- The currency value (in units, as a rational) of an amount of cents. -/
def centsToQ (c : ℤ) : ℚ := (c : ℚ) / 100

/-- The percentage value of a rate stored in hundredths of a percent. -/
def rateToQ (r : ℤ) : ℚ := (r : ℚ) / 100

/-- A rational is exactly representable in the two-decimal fixed-point
representation. -/
def IsTwoDec (q : ℚ) : Prop := ∃ n : ℤ, q = (n : ℚ) / 100

theorem centsToQ_isTwoDec (c : ℤ) : IsTwoDec (centsToQ c) := ⟨c, rfl⟩

theorem roundHalfUpDiv_eq_roundHalfUpQ (n : ℤ) (d : ℕ) (hd : 0 < d) :
    roundHalfUpDiv n d = roundHalfUpQ ((n : ℚ) / (d : ℚ)) := by
  have hdq : (0 : ℚ) < (d : ℚ) := by exact_mod_cast hd
  have key : ∀ m : ℤ, 0 ≤ m → (2 * m + d) / (2 * d) = ⌊(m : ℚ) / d + 1 / 2⌋ := by
    intro m _
    have h2d : ((2 * d : ℕ) : ℤ) = 2 * (d : ℤ) := by push_cast; ring
    have := Rat.floor_intCast_div_natCast (2 * m + d) (2 * d)
    rw [h2d] at this
    have harg : ((2 * m + d : ℤ) : ℚ) / ((2 * d : ℕ) : ℚ) = (m : ℚ) / d + 1 / 2 := by
      push_cast
      field_simp
      ring_nf
    rw [harg] at this
    omega
  unfold roundHalfUpDiv roundHalfUpQ
  by_cases hn : 0 ≤ n
  · rw [if_pos hn, if_pos (by positivity), key n hn]
  · have hn' : 0 ≤ -n := by omega
    have hneg : ¬ 0 ≤ (n : ℚ) / d := by
      rw [not_le]
      apply div_neg_of_neg_of_pos _ hdq
      exact_mod_cast (by omega : n < 0)
    rw [if_neg hn, if_neg hneg, key (-n) hn']
    congr 1
    congr 1
    push_cast
    ring

theorem money_cast (n : ℤ) (d : ℕ) (hd : 0 < d) :
    centsToQ (money n d) = moneyQ ((n : ℚ) / (d : ℚ)) := by
  unfold centsToQ money moneyQ
  rw [roundHalfUpDiv_eq_roundHalfUpQ _ d hd]
  congr 2
  push_cast
  ring

theorem roundHalfUpDiv_cancel (n : ℤ) : roundHalfUpDiv (100 * n) 100 = n := by
  unfold roundHalfUpDiv
  split <;> omega

/-- `money` applied to an exact amount of cents is the identity: the
quantization of an already two-decimal value changes nothing. -/
theorem money_cents (n : ℤ) : money n 100 = n := by
  unfold money
  exact roundHalfUpDiv_cancel n

example : money (2800 * 2) 100 = 5600 := by decide
example : money (5600 * 500) 1000000 = 280 := by decide
example : money (-500) 100 = -500 := by decide
example : roundHalfUpDiv 5 2 = 3 := by decide
example : roundHalfUpDiv (-5) 2 = -3 := by decide

/-!
Data model (`src/app.py` lines 66-155).  Presentation-only columns (name,
category, unit, timestamps, staff) are omitted; `price`, `cost_price` are
cents, `gst_rate` and the discount percentages are hundredths of a percent.
-/

/-- `Product` (`src/app.py` lines 66-84). -/
structure Product where
  id : Nat
  sku : String
  barcode : Option String
  price : ℤ
  cost_price : ℤ
  gst_rate : ℤ
  stock_qty : ℤ
deriving DecidableEq

/-- `OrderItem` columns (`src/app.py` lines 107-118): the snapshot taken at
sale time.  `product_id` references the catalog row; `unit_price` and
`gst_rate` are captured copies. -/
structure OrderItem where
  product_id : Nat
  quantity : ℤ
  unit_price : ℤ
  gst_rate : ℤ
  discount_pct : ℤ
deriving DecidableEq

/-- `OrderItem.line_subtotal` (line 121): `money(unit_price * quantity)`,
exact value `(unit_price/100)·quantity` currency units. -/
def OrderItem.line_subtotal (it : OrderItem) : ℤ :=
  money (it.unit_price * it.quantity) 100

/-- `OrderItem.line_discount_amount` (line 124):
`money(line_subtotal * discount_pct/100)`, exact value
`(s/100)·(p/10000)` currency units. -/
def OrderItem.line_discount_amount (it : OrderItem) : ℤ :=
  money (it.line_subtotal * it.discount_pct) 1000000

/-- `OrderItem.line_taxable` (line 127): `money(line_subtotal - line_discount_amount)`. -/
def OrderItem.line_taxable (it : OrderItem) : ℤ :=
  money (it.line_subtotal - it.line_discount_amount) 100

/-- `OrderItem.line_tax` (line 130): `money(line_taxable * gst_rate/100)`. -/
def OrderItem.line_tax (it : OrderItem) : ℤ :=
  money (it.line_taxable * it.gst_rate) 1000000

/-- `OrderItem.line_total` (line 134): `money(line_taxable + line_tax)`. -/
def OrderItem.line_total (it : OrderItem) : ℤ :=
  money (it.line_taxable + it.line_tax) 100

/-- `OrderItem.line_profit` (lines 137-143):
`money((unit_price - product.cost_price) * quantity - line_discount_amount)`.
The cost price is read from the referenced `Product` row at call time (it is
not an `OrderItem` column), so it is a parameter here. -/
def OrderItem.line_profit (it : OrderItem) (cost_price : ℤ) : ℤ :=
  money ((it.unit_price - cost_price) * it.quantity - it.line_discount_amount) 100

theorem centsToQ_money (n : ℤ) (d : ℕ) (hd : 0 < d) (q : ℚ)
    (hq : (n : ℚ) / (d : ℚ) = q) : centsToQ (money n d) = moneyQ q := by
  rw [money_cast n d hd, hq]

theorem centsToQ_add (a b : ℤ) : centsToQ (a + b) = centsToQ a + centsToQ b := by
  unfold centsToQ
  push_cast
  ring

/-- C1: for every order line with integer quantity > 0, discount_pct in
0-100 and gst_rate ≥ 0 (unit_price is two-decimal by representation), the
per-line figures are computed in order, rounding half-up to two decimals at
each step: subtotal, discount amount, taxable, tax, and
`line_total = line_taxable + line_tax`; in particular
unit_price=28.00, quantity=2, discount_pct=0, gst_rate=5.00 gives
line_taxable=56.00, line_tax=2.80, line_total=58.80. -/
theorem c1_line_pricing :
    (∀ it : OrderItem, 0 < it.quantity → 0 ≤ it.discount_pct →
      it.discount_pct ≤ 10000 → 0 ≤ it.gst_rate →
      centsToQ it.line_subtotal = moneyQ (centsToQ it.unit_price * (it.quantity : ℚ)) ∧
      centsToQ it.line_discount_amount =
        moneyQ (centsToQ it.line_subtotal * (rateToQ it.discount_pct / 100)) ∧
      centsToQ it.line_taxable =
        moneyQ (centsToQ it.line_subtotal - centsToQ it.line_discount_amount) ∧
      centsToQ it.line_tax =
        moneyQ (centsToQ it.line_taxable * (rateToQ it.gst_rate / 100)) ∧
      centsToQ it.line_total = centsToQ it.line_taxable + centsToQ it.line_tax) ∧
    (OrderItem.line_taxable ⟨1, 2, 2800, 500, 0⟩ = 5600 ∧
     OrderItem.line_tax ⟨1, 2, 2800, 500, 0⟩ = 280 ∧
     OrderItem.line_total ⟨1, 2, 2800, 500, 0⟩ = 5880) := by
  constructor
  · intro it _ _ _ _
    refine ⟨?_, ?_, ?_, ?_, ?_⟩
    · apply centsToQ_money _ _ (by norm_num)
      unfold centsToQ
      push_cast
      ring
    · apply centsToQ_money _ _ (by norm_num)
      unfold centsToQ rateToQ
      push_cast
      ring
    · apply centsToQ_money _ _ (by norm_num)
      unfold centsToQ
      push_cast
      ring
    · apply centsToQ_money _ _ (by norm_num)
      unfold centsToQ rateToQ
      push_cast
      ring
    · unfold OrderItem.line_total
      rw [money_cents, centsToQ_add]
  · exact ⟨by decide, by decide, by decide⟩

theorem c1_line_pricing_witness :
    centsToQ (OrderItem.line_tax ⟨1, 2, 2800, 500, 0⟩) =
      moneyQ (centsToQ (OrderItem.line_taxable ⟨1, 2, 2800, 500, 0⟩) *
        (rateToQ (500 : ℤ) / 100)) :=
  (c1_line_pricing.1 ⟨1, 2, 2800, 500, 0⟩ (by decide) (by decide) (by decide)
    (by decide)).2.2.2.1

/-- C7: for every order line,
`line_profit = round((unit_price − cost_price) × quantity − line_discount_amount)`
rounded half-up to two decimals; the line discount reduces recorded profit
and tax plays no role.  In particular cost_price=24.00, unit_price=28.00,
quantity=2, discount_pct=10 gives line_discount_amount=5.60 and
line_profit=2.40. -/
theorem c7_line_profit :
    (∀ (it : OrderItem) (cost_price : ℤ),
      centsToQ (it.line_profit cost_price) =
        moneyQ ((centsToQ it.unit_price - centsToQ cost_price) * (it.quantity : ℚ) -
          centsToQ it.line_discount_amount)) ∧
    (OrderItem.line_discount_amount ⟨1, 2, 2800, 500, 1000⟩ = 560 ∧
     OrderItem.line_profit ⟨1, 2, 2800, 500, 1000⟩ 2400 = 240) := by
  constructor
  · intro it cost_price
    apply centsToQ_money _ _ (by norm_num)
    unfold centsToQ
    push_cast
    ring
  · exact ⟨by decide, by decide⟩

theorem money_cast_int (n d : ℤ) (hd : 0 < d) :
    centsToQ (money n d) = moneyQ ((n : ℚ) / (d : ℚ)) := by
  obtain ⟨m, rfl⟩ : ∃ m : ℕ, d = (m : ℤ) := ⟨d.toNat, (Int.toNat_of_nonneg hd.le).symm⟩
  have hm : 0 < m := by exact_mod_cast hd
  rw [money_cast n m hm]
  norm_num

/-- The four monetary totals written to an `Order` row at commit
(`src/app.py` lines 827-844). -/
structure OrderTotals where
  subtotal : ℤ
  tax_total : ℤ
  grand_total : ℤ
  profit_amount : ℤ
deriving DecidableEq

/-- Order-level aggregation (`src/app.py` lines 826-844) applied to the raw
per-line sums (cents) and the order discount (hundredths of a percent):
`order.subtotal = money(subtotal)`; when the discount is positive,
`order_discount_amount = money(order.subtotal * od/100)` is subtracted and,
when the raw subtotal is positive, tax and profit are scaled by the exact
ratio `(subtotal - order_discount_amount) / subtotal` and rounded; finally
`order.tax_total = money(tax_total)`,
`order.grand_total = money(order.subtotal + order.tax_total)` and
`order.profit_amount = money(profit_total)`. -/
def orderAggregate (subtotal tax_total profit_total od : ℤ) : OrderTotals :=
  let osub := money subtotal 100
  if 0 < od then
    let oda := money (osub * od) 1000000
    let osub2 := money (osub - oda) 100
    if 0 < subtotal then
      let tax2 := money (tax_total * (subtotal - oda)) (100 * subtotal)
      let prof2 := money (profit_total * (subtotal - oda)) (100 * subtotal)
      ⟨osub2, money tax2 100, money (osub2 + money tax2 100) 100, money prof2 100⟩
    else
      ⟨osub2, money tax_total 100, money (osub2 + money tax_total 100) 100,
        money profit_total 100⟩
  else
    ⟨osub, money tax_total 100, money (osub + money tax_total 100) 100,
      money profit_total 100⟩

theorem orderAggregate_no_discount (subtotal tax_total profit_total od : ℤ)
    (h : ¬ 0 < od) :
    orderAggregate subtotal tax_total profit_total od =
      ⟨subtotal, tax_total, subtotal + tax_total, profit_total⟩ := by
  simp only [orderAggregate, money_cents]
  rw [if_neg h]

theorem orderAggregate_discount (subtotal tax_total profit_total od : ℤ)
    (hod : 0 < od) (hsub : 0 < subtotal) :
    orderAggregate subtotal tax_total profit_total od =
      ⟨subtotal - money (subtotal * od) 1000000,
       money (tax_total * (subtotal - money (subtotal * od) 1000000))
         (100 * subtotal),
       subtotal - money (subtotal * od) 1000000 +
         money (tax_total * (subtotal - money (subtotal * od) 1000000))
           (100 * subtotal),
       money (profit_total * (subtotal - money (subtotal * od) 1000000))
         (100 * subtotal)⟩ := by
  simp only [orderAggregate, money_cents]
  rw [if_pos hod, if_pos hsub]

theorem orderAggregate_zero_subtotal (tax_total profit_total od : ℤ) :
    orderAggregate 0 tax_total profit_total od =
      ⟨0, tax_total, 0 + tax_total, profit_total⟩ := by
  by_cases hod : 0 < od
  · have h0 : money ((0 : ℤ) * od) 1000000 = 0 := by
      rw [zero_mul]
      decide
    simp only [orderAggregate, money_cents]
    rw [if_pos hod, h0, if_neg (by omega : ¬ (0 : ℤ) < 0)]
    simp only [money_cents, sub_zero]
  · rw [orderAggregate_no_discount _ _ _ _ hod]

/-!
State layer: products table, session cart, customers, orders, audit log,
and the POS operations (`src/app.py` lines 673-693 and 755-857).  SQLAlchemy
session semantics: all mutations live in the open transaction and a
`rollback()` discards every one of them, so an aborted operation returns the
caller's database value unchanged.
-/

/-- One pending line of the session cart (`src/app.py` line 788):
`{"product_id": pid, "qty": qty, "discount": d}`; the discount is a
percentage in hundredths of a percent. -/
structure CartLine where
  product_id : Nat
  qty : ℤ
  discount : ℤ
deriving DecidableEq

/-- `Customer` (`src/app.py` lines 86-90). -/
structure Customer where
  id : Nat
  name : String
  phone : String
deriving DecidableEq

/-- `Order` (`src/app.py` lines 92-105) with its owned items. -/
structure Order where
  customer_id : Nat
  order_discount : ℤ
  subtotal : ℤ
  tax_total : ℤ
  grand_total : ℤ
  profit_amount : ℤ
  items : List OrderItem
deriving DecidableEq

/-- Reason of an `InventoryLog` entry (`src/app.py` line 151, enumerated
strings `"sale"` / `"refill"`). -/
inductive LogReason where
  | sale
  | refill
deriving DecidableEq

/-- `InventoryLog` (`src/app.py` lines 145-155). -/
structure InventoryLog where
  product_id : Nat
  change_qty : ℤ
  reason : LogReason
deriving DecidableEq

/-- The persistent store: the tables the engine reads and writes. -/
structure DB where
  products : List Product
  customers : List Customer
  orders : List Order
  logs : List InventoryLog
deriving DecidableEq

/-- `s.get(Product, pid)`: look a product up by primary key. -/
def findProduct (ps : List Product) (pid : Nat) : Option Product :=
  ps.find? (fun p => p.id == pid)

/-- `prod.stock_qty += delta` on the row `pid`: replace the first row with
that primary key (primary keys are unique in the table). -/
def updateStock : List Product → Nat → ℤ → List Product
  | [], _, _ => []
  | p :: ps, pid, delta =>
    if p.id = pid then { p with stock_qty := p.stock_qty + delta } :: ps
    else p :: updateStock ps pid delta

/-- Why a checkout attempt aborts: empty cart (`src/app.py` line 797), a
cart line whose product no longer exists, or the authoritative stock
re-check failing (`src/app.py` line 812). -/
inductive AbortReason where
  | emptyCart
  | productMissing
  | insufficientStock
deriving DecidableEq

/-- The per-line working state of the checkout loop (`src/app.py` lines
805-824): the products table as mutated so far, the `OrderItem` rows and
`sale` log entries created so far, and the three raw running sums. -/
structure LineAcc where
  products : List Product
  items : List OrderItem
  logs : List InventoryLog
  subtotal : ℤ
  tax_total : ℤ
  profit_total : ℤ
deriving DecidableEq

/-- The checkout loop over the cart (`src/app.py` lines 809-824): re-check
stock against the session's current value (earlier lines of the same attempt
included), snapshot `unit_price`/`gst_rate` into an `OrderItem`, decrement
stock, append a `sale` log entry, and accumulate the raw sums of
`line_taxable`, `line_tax` and `line_profit` (the latter at the product's
current `cost_price`). -/
def processLines (ps : List Product) : List CartLine → Except AbortReason LineAcc
  | [] => .ok ⟨ps, [], [], 0, 0, 0⟩
  | line :: rest =>
    match findProduct ps line.product_id with
    | none => .error .productMissing
    | some prod =>
      if prod.stock_qty < line.qty then .error .insufficientStock
      else
        let item : OrderItem :=
          ⟨prod.id, line.qty, prod.price, prod.gst_rate, line.discount⟩
        match processLines (updateStock ps prod.id (-line.qty)) rest with
        | .error r => .error r
        | .ok acc =>
          .ok ⟨acc.products, item :: acc.items,
               ⟨prod.id, -line.qty, .sale⟩ :: acc.logs,
               item.line_taxable + acc.subtotal,
               item.line_tax + acc.tax_total,
               item.line_profit prod.cost_price + acc.profit_total⟩

/-- Customer resolution (`src/app.py` lines 799-801): exact match on phone
reuses the row, otherwise a new `Customer` is inserted. -/
def findOrCreateCustomer (cs : List Customer) (phone name : String) :
    List Customer × Nat :=
  match cs.find? (fun c => c.phone == phone) with
  | some c => (cs, c.id)
  | none => (cs ++ [⟨cs.length + 1, name, phone⟩], cs.length + 1)

/-- Outcome of one checkout attempt: either the transaction committed (new
database, cleared cart, created order) or it aborted (`s.rollback()`:
database and session cart exactly as before). -/
inductive CheckoutResult where
  | committed (db : DB) (cart : List CartLine) (order : Order)
  | aborted (reason : AbortReason) (db : DB) (cart : List CartLine)
deriving DecidableEq

def CheckoutResult.isCommitted : CheckoutResult → Bool
  | .committed _ _ _ => true
  | .aborted _ _ _ => false

def CheckoutResult.subtotalOf : CheckoutResult → Option ℤ
  | .committed _ _ o => some o.subtotal
  | .aborted _ _ _ => none

def CheckoutResult.profitOf : CheckoutResult → Option ℤ
  | .committed _ _ o => some o.profit_amount
  | .aborted _ _ _ => none

/-- The checkout branch of `pos` (`src/app.py` lines 793-849): reject an
empty cart; resolve or create the customer by phone; run the line loop; on
any line failure roll the whole transaction back (database and cart
unchanged); otherwise apply the order-level aggregation, persist the order,
its items and the sale log entries, and clear the session cart.  The order
discount percentage is taken from the form as-is (no range validation in
the source). -/
def checkout (db : DB) (cart : List CartLine) (order_discount : ℤ)
    (phone name : String) : CheckoutResult :=
  if cart.isEmpty then .aborted .emptyCart db cart
  else
    let fc := findOrCreateCustomer db.customers phone name
    match processLines db.products cart with
    | .error r => .aborted r db cart
    | .ok acc =>
      let t := orderAggregate acc.subtotal acc.tax_total acc.profit_total order_discount
      let order : Order := ⟨fc.2, order_discount, t.subtotal, t.tax_total,
        t.grand_total, t.profit_amount, acc.items⟩
      .committed ⟨acc.products, fc.1, db.orders ++ [order], db.logs ++ acc.logs⟩
        [] order

/-- Outcome of a refill attempt (`src/app.py` lines 673-693): committed, or
rolled back (database unchanged). -/
inductive RefillResult where
  | ok (db : DB)
  | failed (db : DB)
deriving DecidableEq

/-- `refill` (`src/app.py` lines 673-693): reject a non-positive quantity
and a missing product (rollback, nothing changed); otherwise add the
quantity to the product's stock and append a `refill` log entry. -/
def refill (db : DB) (pid : Nat) (qty : ℤ) : RefillResult :=
  if qty ≤ 0 then .failed db
  else
    match findProduct db.products pid with
    | none => .failed db
    | some _ =>
      .ok ⟨updateStock db.products pid qty, db.customers, db.orders,
           db.logs ++ [⟨pid, qty, .refill⟩]⟩

/-- Validation failures of the add-to-cart branch (`src/app.py` lines
773-787). -/
inductive AddLineErr where
  | notFoundByToken
  | notFound
  | invalidQty
  | notEnoughStock
deriving DecidableEq

/-- Result of the add-to-cart branch: the new session cart, or an error with
the cart the caller keeps. -/
inductive AddLineResult where
  | ok (cart : List CartLine)
  | err (cart : List CartLine) (reason : AddLineErr)
deriving DecidableEq

/-- Product resolution by scanned token (`src/app.py` line 772): the single
combined query `filter((Product.barcode==tok)|(Product.sku==tok)).first()`.
Both `sku` and `barcode` carry unique indexes, and SQLite executes this
query as a multi-index OR that emits the barcode-index matches before the
sku-index matches, so `.first()` returns a barcode match when one exists
and falls back to a SKU match otherwise. -/
def findByBarcodeOrSku (ps : List Product) (tok : String) : Option Product :=
  match ps.find? (fun p => p.barcode == some tok) with
  | some p => some p
  | none => ps.find? (fun p => p.sku == tok)

/-- Shared validation tail of the add-to-cart branch (`src/app.py` lines
780-791): positive quantity, advisory stock check, then append the line. -/
def addLineChecked (cart : List CartLine) (prod : Product) (qty : ℤ)
    (discount : ℤ) : AddLineResult :=
  if qty ≤ 0 then .err cart .invalidQty
  else if prod.stock_qty < qty then .err cart .notEnoughStock
  else .ok (cart ++ [⟨prod.id, qty, discount⟩])

/-- The add-to-cart branch of `pos` (`src/app.py` lines 767-791): a
non-empty scanned token resolves via `findByBarcodeOrSku` (the explicit
`product_id` is ignored); an empty token falls back to the selected product
id; a failed resolution is an error that leaves the cart unchanged. -/
def addLine (ps : List Product) (cart : List CartLine) (tok : String)
    (product_id : Nat) (qty : ℤ) (discount : ℤ) : AddLineResult :=
  if tok = "" then
    match findProduct ps product_id with
    | none => .err cart .notFound
    | some prod => addLineChecked cart prod qty discount
  else
    match findByBarcodeOrSku ps tok with
    | none => .err cart .notFoundByToken
    | some prod => addLineChecked cart prod qty discount

/-- Catalog edits (`add_product` / `products_import`, `src/app.py` lines
648-750) modify rows of the products table only; orders, order items and
logs are untouched.  An arbitrary row-wise edit. -/
def updateCatalog (db : DB) (f : Product → Product) : DB :=
  ⟨db.products.map f, db.customers, db.orders, db.logs⟩

/-- Every product row has a non-negative stock count. -/
def stockNonneg (ps : List Product) : Prop := ∀ p ∈ ps, 0 ≤ p.stock_qty

instance : DecidablePred stockNonneg := fun ps =>
  decidable_of_iff (∀ p ∈ ps, 0 ≤ p.stock_qty) Iff.rfl

theorem orderAggregate_discount_nonpos (subtotal tax_total profit_total od : ℤ)
    (hod : 0 < od) (hsub : ¬ 0 < subtotal) :
    orderAggregate subtotal tax_total profit_total od =
      ⟨subtotal - money (subtotal * od) 1000000, tax_total,
       subtotal - money (subtotal * od) 1000000 + tax_total, profit_total⟩ := by
  simp only [orderAggregate, money_cents]
  rw [if_pos hod, if_neg hsub]

/-- In every branch of the order aggregation the grand total is the sum of
the written subtotal and tax total. -/
theorem orderAggregate_grand (subtotal tax_total profit_total od : ℤ) :
    (orderAggregate subtotal tax_total profit_total od).grand_total =
      (orderAggregate subtotal tax_total profit_total od).subtotal +
        (orderAggregate subtotal tax_total profit_total od).tax_total := by
  by_cases hod : 0 < od
  · by_cases hsub : 0 < subtotal
    · rw [orderAggregate_discount _ _ _ _ hod hsub]
    · rw [orderAggregate_discount_nonpos _ _ _ _ hod hsub]
  · rw [orderAggregate_no_discount _ _ _ _ hod]

/-- Inversion of a committed checkout: the line loop succeeded, the cart was
cleared, the order holds the loop's items with the aggregated totals, and
the new database is the mutated products table plus the appended order, log
entries and (possibly created) customer. -/
theorem checkout_committed_spec (db : DB) (cart : List CartLine) (od : ℤ)
    (ph nm : String) (db' : DB) (c' : List CartLine) (o : Order)
    (h : checkout db cart od ph nm = .committed db' c' o) :
    ∃ acc, processLines db.products cart = .ok acc ∧
      c' = [] ∧ o.items = acc.items ∧ o.order_discount = od ∧
      OrderTotals.mk o.subtotal o.tax_total o.grand_total o.profit_amount =
        orderAggregate acc.subtotal acc.tax_total acc.profit_total od ∧
      db' = ⟨acc.products, (findOrCreateCustomer db.customers ph nm).1,
        db.orders ++ [o], db.logs ++ acc.logs⟩ := by
  unfold checkout at h
  by_cases hemp : cart.isEmpty
  · rw [if_pos hemp] at h
    exact absurd h (by simp)
  · rw [if_neg hemp] at h
    cases hp : processLines db.products cart with
    | error r =>
      rw [hp] at h
      exact absurd h (by simp)
    | ok acc =>
      rw [hp] at h
      simp only [CheckoutResult.committed.injEq] at h
      obtain ⟨hdb, hc, ho⟩ := h
      refine ⟨acc, rfl, hc.symm, ?_, ?_, ?_, ?_⟩
      · rw [← ho]
      · rw [← ho]
      · rw [← ho]
      · rw [← hdb, ← ho]

theorem processLines_sums (cart : List CartLine) (ps : List Product)
    (acc : LineAcc) (h : processLines ps cart = .ok acc) :
    acc.subtotal = (acc.items.map OrderItem.line_taxable).sum ∧
    acc.tax_total = (acc.items.map OrderItem.line_tax).sum ∧
    ∃ costs : List ℤ, costs.length = acc.items.length ∧
      acc.profit_total =
        (List.zipWith OrderItem.line_profit acc.items costs).sum := by
  induction cart generalizing ps acc with
  | nil =>
    unfold processLines at h
    simp only [Except.ok.injEq] at h
    rw [← h]
    exact ⟨rfl, rfl, [], rfl, rfl⟩
  | cons line rest ih =>
    unfold processLines at h
    cases hf : findProduct ps line.product_id with
    | none =>
      simp only [hf] at h
      exact absurd h (by simp)
    | some prod =>
      simp only [hf] at h
      by_cases hst : prod.stock_qty < line.qty
      · rw [if_pos hst] at h
        exact absurd h (by simp)
      · rw [if_neg hst] at h
        cases hrec : processLines (updateStock ps prod.id (-line.qty)) rest with
        | error r =>
          simp only [hrec] at h
          exact absurd h (by simp)
        | ok acc' =>
          simp only [hrec, Except.ok.injEq] at h
          obtain ⟨hs, ht, ⟨costs, hlen, hp⟩⟩ := ih _ _ hrec
          rw [← h]
          refine ⟨?_, ?_, prod.cost_price :: costs, ?_, ?_⟩
          · simp only [List.map_cons, List.sum_cons, hs]
          · simp only [List.map_cons, List.sum_cons, ht]
          · simp only [List.length_cons, hlen]
          · simp only [List.zipWith_cons_cons, List.sum_cons, hp]

theorem updateStock_add_nonneg (ps : List Product) (pid : Nat) (qty : ℤ)
    (hq : 0 ≤ qty) (h : stockNonneg ps) : stockNonneg (updateStock ps pid qty) := by
  induction ps with
  | nil => intro p hp; cases hp
  | cons a ps ih =>
    intro p hp
    unfold updateStock at hp
    by_cases hid : a.id = pid
    · rw [if_pos hid] at hp
      rcases List.mem_cons.mp hp with h1 | h2
      · subst h1
        have := h a (List.mem_cons_self a ps)
        simp only
        omega
      · exact h p (List.mem_cons_of_mem a h2)
    · rw [if_neg hid] at hp
      rcases List.mem_cons.mp hp with h1 | h2
      · subst h1
        exact h p (List.mem_cons_self p ps)
      · exact ih (fun q hq2 => h q (List.mem_cons_of_mem a hq2)) p h2

theorem updateStock_dec_nonneg (ps : List Product) (pid : Nat) (prod : Product)
    (qty : ℤ) (hf : findProduct ps pid = some prod) (hle : qty ≤ prod.stock_qty)
    (h : stockNonneg ps) : stockNonneg (updateStock ps pid (-qty)) := by
  induction ps with
  | nil => cases hf
  | cons a ps ih =>
    by_cases hid : a.id = pid
    · have ha : prod = a := by
        unfold findProduct at hf
        rw [List.find?_cons_of_pos _ (by simpa using hid)] at hf
        exact (Option.some.inj hf).symm
      intro p hp
      unfold updateStock at hp
      rw [if_pos hid] at hp
      rcases List.mem_cons.mp hp with h1 | h2
      · subst h1
        simp only
        subst ha
        omega
      · exact h p (List.mem_cons_of_mem a h2)
    · have hf' : findProduct ps pid = some prod := by
        unfold findProduct at hf ⊢
        rwa [List.find?_cons_of_neg _ (by simpa using hid)] at hf
      intro p hp
      unfold updateStock at hp
      rw [if_neg hid] at hp
      rcases List.mem_cons.mp hp with h1 | h2
      · subst h1
        exact h p (List.mem_cons_self p ps)
      · exact ih hf' (fun q hq2 => h q (List.mem_cons_of_mem a hq2)) p h2

theorem processLines_stockNonneg (cart : List CartLine) (ps : List Product)
    (acc : LineAcc) (h : processLines ps cart = .ok acc)
    (hnn : stockNonneg ps) : stockNonneg acc.products := by
  induction cart generalizing ps acc with
  | nil =>
    unfold processLines at h
    simp only [Except.ok.injEq] at h
    rw [← h]
    exact hnn
  | cons line rest ih =>
    unfold processLines at h
    cases hf : findProduct ps line.product_id with
    | none =>
      simp only [hf] at h
      exact absurd h (by simp)
    | some prod =>
      simp only [hf] at h
      by_cases hst : prod.stock_qty < line.qty
      · rw [if_pos hst] at h
        exact absurd h (by simp)
      · rw [if_neg hst] at h
        have hid : prod.id = line.product_id := by
          unfold findProduct at hf
          have := List.find?_some hf
          simpa using this
        cases hrec : processLines (updateStock ps prod.id (-line.qty)) rest with
        | error r =>
          simp only [hrec] at h
          exact absurd h (by simp)
        | ok acc' =>
          simp only [hrec, Except.ok.injEq] at h
          rw [← h]
          have hstep : stockNonneg (updateStock ps prod.id (-line.qty)) := by
            apply updateStock_dec_nonneg ps prod.id prod line.qty _ (by omega) hnn
            rw [hid]
            exact hf
          exact ih (updateStock ps prod.id (-line.qty)) acc' hrec hstep

theorem processLines_error_reason (cart : List CartLine) (ps : List Product)
    (r : AbortReason) (h : processLines ps cart = .error r) : r ≠ .emptyCart := by
  induction cart generalizing ps r with
  | nil =>
    unfold processLines at h
    exact absurd h (by simp)
  | cons line rest ih =>
    unfold processLines at h
    cases hf : findProduct ps line.product_id with
    | none =>
      simp only [hf, Except.error.injEq] at h
      rw [← h]
      exact fun hc => by cases hc
    | some prod =>
      simp only [hf] at h
      by_cases hst : prod.stock_qty < line.qty
      · rw [if_pos hst] at h
        simp only [Except.error.injEq] at h
        rw [← h]
        exact fun hc => by cases hc
      · rw [if_neg hst] at h
        cases hrec : processLines (updateStock ps prod.id (-line.qty)) rest with
        | error r2 =>
          simp only [hrec, Except.error.injEq] at h
          rw [← h]
          exact ih _ _ hrec
        | ok acc =>
          simp only [hrec] at h
          exact absurd h (by simp)

/-- C2: the committed order's totals are `orderAggregate` applied to the
sums of `line_taxable`, `line_tax` and `line_profit` (the latter at the
commit-time cost prices) over the cart lines; with a positive order discount
and positive raw subtotal the discount amount is `round(subtotal·od/100)`,
the subtotal becomes `subtotal − oda`, and the raw tax and profit totals are
multiplied by the exact unrounded ratio `(subtotal − oda)/subtotal` and then
rounded half-up to two decimals; a zero raw subtotal makes the discount a
no-op on every total (no division by zero); the concrete instance
subtotal=100.00, tax_total_raw=10.00, profit_total_raw=20.00,
order_discount_pct=10 yields 10.00 / 90.00 / 9.00 / 18.00 / 99.00. -/
theorem c2_order_aggregation :
    (∀ (db : DB) (cart : List CartLine) (od : ℤ) (ph nm : String)
      (db' : DB) (c' : List CartLine) (o : Order),
      checkout db cart od ph nm = .committed db' c' o →
      ∃ acc, processLines db.products cart = .ok acc ∧
        acc.subtotal = (acc.items.map OrderItem.line_taxable).sum ∧
        acc.tax_total = (acc.items.map OrderItem.line_tax).sum ∧
        (∃ costs : List ℤ, costs.length = acc.items.length ∧
          acc.profit_total =
            (List.zipWith OrderItem.line_profit acc.items costs).sum) ∧
        o.items = acc.items ∧
        OrderTotals.mk o.subtotal o.tax_total o.grand_total o.profit_amount =
          orderAggregate acc.subtotal acc.tax_total acc.profit_total od) ∧
    (∀ subtotal tax_total profit_total od : ℤ, 0 < od → 0 < subtotal →
      centsToQ (money (subtotal * od) 1000000) =
        moneyQ (centsToQ subtotal * (rateToQ od / 100)) ∧
      (orderAggregate subtotal tax_total profit_total od).subtotal =
        subtotal - money (subtotal * od) 1000000 ∧
      centsToQ (orderAggregate subtotal tax_total profit_total od).tax_total =
        moneyQ (centsToQ tax_total *
          ((centsToQ subtotal - centsToQ (money (subtotal * od) 1000000)) /
            centsToQ subtotal)) ∧
      centsToQ (orderAggregate subtotal tax_total profit_total od).profit_amount =
        moneyQ (centsToQ profit_total *
          ((centsToQ subtotal - centsToQ (money (subtotal * od) 1000000)) /
            centsToQ subtotal))) ∧
    (∀ tax_total profit_total od : ℤ,
      orderAggregate 0 tax_total profit_total od =
        orderAggregate 0 tax_total profit_total 0) ∧
    orderAggregate 10000 1000 2000 1000 = ⟨9000, 900, 9900, 1800⟩ := by
  refine ⟨?_, ?_, ?_, by decide⟩
  · intro db cart od ph nm db' c' o h
    obtain ⟨acc, hp, _, hitems, _, htot, _⟩ :=
      checkout_committed_spec db cart od ph nm db' c' o h
    obtain ⟨hs, ht, hcs⟩ := processLines_sums cart db.products acc hp
    exact ⟨acc, hp, hs, ht, hcs, hitems, htot⟩
  · intro subtotal tax_total profit_total od hod hsub
    have hsubq : (0 : ℚ) < (subtotal : ℚ) := by exact_mod_cast hsub
    have harg : ∀ x : ℤ,
        ((x * (subtotal - money (subtotal * od) 1000000) : ℤ) : ℚ) /
            ((100 * subtotal : ℤ) : ℚ) =
          centsToQ x * ((centsToQ subtotal -
            centsToQ (money (subtotal * od) 1000000)) / centsToQ subtotal) := by
      intro x
      unfold centsToQ
      push_cast
      field_simp
    refine ⟨?_, ?_, ?_, ?_⟩
    · apply centsToQ_money _ _ (by norm_num)
      unfold centsToQ rateToQ
      push_cast
      ring
    · rw [orderAggregate_discount _ _ _ _ hod hsub]
    · rw [orderAggregate_discount _ _ _ _ hod hsub]
      show centsToQ (money (tax_total * (subtotal - money (subtotal * od) 1000000))
        (100 * subtotal)) = _
      rw [money_cast_int _ _ (by omega), harg tax_total]
    · rw [orderAggregate_discount _ _ _ _ hod hsub]
      show centsToQ (money (profit_total * (subtotal - money (subtotal * od) 1000000))
        (100 * subtotal)) = _
      rw [money_cast_int _ _ (by omega), harg profit_total]
  · intro tax_total profit_total od
    rw [orderAggregate_zero_subtotal, orderAggregate_zero_subtotal]

theorem c2_order_aggregation_witness :
    (orderAggregate 10000 1000 2000 1000).subtotal =
      10000 - money (10000 * 1000) 1000000 :=
  (c2_order_aggregation.2.1 10000 1000 2000 1000 (by decide) (by decide)).2.1

/-- C3: for every committed order, `grand_total = subtotal + tax_total`
holds exactly, and the four monetary totals are each exactly representable
in the two-decimal fixed-point representation (in this embedding every
monetary amount is a whole number of cents by construction, because every
total is produced by `money`). -/
theorem c3_committed_totals :
    ∀ (db : DB) (cart : List CartLine) (od : ℤ) (ph nm : String)
      (db' : DB) (c' : List CartLine) (o : Order),
      checkout db cart od ph nm = .committed db' c' o →
      o.grand_total = o.subtotal + o.tax_total ∧
      IsTwoDec (centsToQ o.subtotal) ∧ IsTwoDec (centsToQ o.tax_total) ∧
      IsTwoDec (centsToQ o.grand_total) ∧ IsTwoDec (centsToQ o.profit_amount) := by
  intro db cart od ph nm db' c' o h
  obtain ⟨acc, _, _, _, _, htot, _⟩ :=
    checkout_committed_spec db cart od ph nm db' c' o h
  have h1 := congrArg OrderTotals.subtotal htot
  have h2 := congrArg OrderTotals.tax_total htot
  have h3 := congrArg OrderTotals.grand_total htot
  simp only at h1 h2 h3
  refine ⟨?_, centsToQ_isTwoDec _, centsToQ_isTwoDec _, centsToQ_isTwoDec _,
    centsToQ_isTwoDec _⟩
  rw [h1, h2, h3]
  exact orderAggregate_grand acc.subtotal acc.tax_total acc.profit_total od

theorem c3_committed_totals_witness :
    (Order.mk 1 0 5040 0 5040 240 [⟨1, 2, 2800, 0, 1000⟩]).grand_total =
      (Order.mk 1 0 5040 0 5040 240 [⟨1, 2, 2800, 0, 1000⟩]).subtotal +
        (Order.mk 1 0 5040 0 5040 240 [⟨1, 2, 2800, 0, 1000⟩]).tax_total :=
  (c3_committed_totals ⟨[⟨1, "M", none, 2800, 2400, 0, 5⟩], [], [], []⟩
    [⟨1, 2, 1000⟩] 0 "p" "c"
    ⟨[⟨1, "M", none, 2800, 2400, 0, 3⟩], [⟨1, "c", "p"⟩],
      [⟨1, 0, 5040, 0, 5040, 240, [⟨1, 2, 2800, 0, 1000⟩]⟩], [⟨1, -2, .sale⟩]⟩
    [] ⟨1, 0, 5040, 0, 5040, 240, [⟨1, 2, 2800, 0, 1000⟩]⟩ (by decide)).1

/-- C4: an aborted checkout attempt (any reason, in particular the
authoritative stock re-check failing on any line) changes nothing: the
database (products, customers, orders, order items, logs) is exactly the
caller's and the session cart is preserved for retry; a committed checkout
clears the session cart. -/
theorem c4_checkout_atomicity :
    ∀ (db : DB) (cart : List CartLine) (od : ℤ) (ph nm : String),
      (∀ r db' c', checkout db cart od ph nm = .aborted r db' c' →
        db' = db ∧ c' = cart) ∧
      (∀ db' c' o, checkout db cart od ph nm = .committed db' c' o →
        c' = []) := by
  intro db cart od ph nm
  refine ⟨?_, ?_⟩
  · intro r db' c' h
    unfold checkout at h
    by_cases hemp : cart.isEmpty
    · rw [if_pos hemp] at h
      simp only [CheckoutResult.aborted.injEq] at h
      exact ⟨h.2.1.symm, h.2.2.symm⟩
    · rw [if_neg hemp] at h
      cases hp : processLines db.products cart with
      | error r2 =>
        simp only [hp, CheckoutResult.aborted.injEq] at h
        exact ⟨h.2.1.symm, h.2.2.symm⟩
      | ok acc =>
        simp only [hp] at h
        exact absurd h (by simp)
  · intro db' c' o h
    obtain ⟨acc, _, hc, _⟩ := checkout_committed_spec db cart od ph nm db' c' o h
    exact hc

theorem c4_checkout_atomicity_witness :
    (⟨[⟨1, "A", none, 1000, 800, 0, 2⟩], [], [], []⟩ : DB) =
        ⟨[⟨1, "A", none, 1000, 800, 0, 2⟩], [], [], []⟩ ∧
      ([⟨1, 3, 0⟩] : List CartLine) = [⟨1, 3, 0⟩] :=
  (c4_checkout_atomicity ⟨[⟨1, "A", none, 1000, 800, 0, 2⟩], [], [], []⟩
    [⟨1, 3, 0⟩] 0 "p" "c").1 .insufficientStock _ _ (by decide)

/-- C5: from any state with every stock count non-negative, both a completed
checkout (which decrements only after re-checking the session-current
stock against the line quantity, repeated lines included) and a completed
refill (which rejects non-positive quantities) leave every stock count
non-negative. -/
theorem c5_stock_nonneg :
    ∀ db : DB, stockNonneg db.products →
      (∀ (cart : List CartLine) (od : ℤ) (ph nm : String)
        (db' : DB) (c' : List CartLine) (o : Order),
        checkout db cart od ph nm = .committed db' c' o →
        stockNonneg db'.products) ∧
      (∀ (pid : Nat) (qty : ℤ) (db2 : DB), refill db pid qty = .ok db2 →
        stockNonneg db2.products) := by
  intro db hnn
  refine ⟨?_, ?_⟩
  · intro cart od ph nm db' c' o h
    obtain ⟨acc, hp, _, _, _, _, hdb⟩ :=
      checkout_committed_spec db cart od ph nm db' c' o h
    rw [hdb]
    exact processLines_stockNonneg cart db.products acc hp hnn
  · intro pid qty db2 h
    unfold refill at h
    by_cases hq : qty ≤ 0
    · rw [if_pos hq] at h
      exact absurd h (by simp)
    · rw [if_neg hq] at h
      cases hf : findProduct db.products pid with
      | none =>
        simp only [hf] at h
        exact absurd h (by simp)
      | some p =>
        simp only [hf, RefillResult.ok.injEq] at h
        rw [← h]
        exact updateStock_add_nonneg db.products pid qty (by omega) hnn

theorem c5_stock_nonneg_witness :
    stockNonneg (DB.mk [⟨1, "M", none, 2800, 2400, 0, 3⟩] [⟨1, "c", "p"⟩]
      [⟨1, 0, 5040, 0, 5040, 240, [⟨1, 2, 2800, 0, 1000⟩]⟩]
      [⟨1, -2, .sale⟩]).products :=
  (c5_stock_nonneg ⟨[⟨1, "M", none, 2800, 2400, 0, 5⟩], [], [], []⟩
    (by decide)).1 [⟨1, 2, 1000⟩] 0 "p" "c"
    ⟨[⟨1, "M", none, 2800, 2400, 0, 3⟩], [⟨1, "c", "p"⟩],
      [⟨1, 0, 5040, 0, 5040, 240, [⟨1, 2, 2800, 0, 1000⟩]⟩], [⟨1, -2, .sale⟩]⟩
    [] ⟨1, 0, 5040, 0, 5040, 240, [⟨1, 2, 2800, 0, 1000⟩]⟩ (by decide)

/-- C6 (counterexample): the claim says checkout validation rejects an
order-discount percentage outside 0-100; the source never range-checks it
(line 796 reads the form value as-is).  A checkout with a 150 percent order
discount and a non-empty cart commits, and its subtotal is negative. -/
theorem c6_counterexample :
    (10000 : ℤ) < 15000 ∧
    (checkout ⟨[⟨1, "A", none, 1000, 800, 0, 5⟩], [], [], []⟩ [⟨1, 1, 0⟩]
      15000 "p" "c").isCommitted = true ∧
    (checkout ⟨[⟨1, "A", none, 1000, 800, 0, 5⟩], [], [], []⟩ [⟨1, 1, 0⟩]
      15000 "p" "c").subtotalOf = some (-500) :=
  ⟨by decide, by decide, by decide⟩

/-- C6 (amended): checkout validation rejects an empty cart immediately —
nothing persisted (no order, order item, customer, stock change or log
entry) and the cart untouched; the order-discount percentage is not
validated: a non-empty cart is never rejected by validation, whatever the
discount value. -/
theorem c6_empty_cart_validation :
    ∀ (db : DB) (od : ℤ) (ph nm : String),
      checkout db [] od ph nm = .aborted .emptyCart db [] ∧
      ∀ cart : List CartLine, cart ≠ [] → ∀ db' c',
        checkout db cart od ph nm ≠ .aborted .emptyCart db' c' := by
  intro db od ph nm
  refine ⟨rfl, ?_⟩
  intro cart hne db' c' h
  unfold checkout at h
  rw [if_neg (by simpa using hne)] at h
  cases hp : processLines db.products cart with
  | error r =>
    simp only [hp, CheckoutResult.aborted.injEq] at h
    exact processLines_error_reason cart db.products r hp h.1
  | ok acc =>
    simp only [hp] at h
    exact absurd h (by simp)

theorem c6_empty_cart_validation_witness :
    checkout ⟨[], [], [], []⟩ [⟨1, 1, 0⟩] 20000 "p" "c" ≠
      .aborted .emptyCart ⟨[], [], [], []⟩ [⟨1, 1, 0⟩] :=
  (c6_empty_cart_validation ⟨[], [], [], []⟩ 20000 "p" "c").2
    [⟨1, 1, 0⟩] (by decide) _ _

/-- C8: the per-line figures of a persisted `OrderItem` recompute from its
stored columns alone — any item agreeing on `unit_price`, `quantity`,
`gst_rate` and `discount_pct` (whatever product it references) yields the
same `line_taxable`, `line_tax` and `line_total` — and a catalog edit after
commit leaves the persisted orders (hence every stored snapshot) unchanged,
with the committed order present among them. -/
theorem c8_recompute_snapshot :
    ∀ (db : DB) (cart : List CartLine) (od : ℤ) (ph nm : String)
      (db' : DB) (c' : List CartLine) (o : Order),
      checkout db cart od ph nm = .committed db' c' o →
      ∀ f : Product → Product,
        (updateCatalog db' f).orders = db'.orders ∧
        o ∈ db'.orders ∧
        ∀ it ∈ o.items, ∀ it' : OrderItem,
          it'.unit_price = it.unit_price → it'.quantity = it.quantity →
          it'.gst_rate = it.gst_rate → it'.discount_pct = it.discount_pct →
          it'.line_taxable = it.line_taxable ∧ it'.line_tax = it.line_tax ∧
            it'.line_total = it.line_total := by
  intro db cart od ph nm db' c' o h f
  obtain ⟨acc, _, _, _, _, _, hdb⟩ :=
    checkout_committed_spec db cart od ph nm db' c' o h
  refine ⟨rfl, ?_, ?_⟩
  · rw [hdb]
    simp
  · intro it _ it' h1 h2 h3 h4
    refine ⟨?_, ?_, ?_⟩ <;>
      simp only [OrderItem.line_total, OrderItem.line_tax, OrderItem.line_taxable,
        OrderItem.line_discount_amount, OrderItem.line_subtotal, h1, h2, h3, h4]

theorem c8_recompute_snapshot_witness :
    (updateCatalog ⟨[⟨1, "M", none, 2800, 2400, 0, 3⟩], [⟨1, "c", "p"⟩],
        [⟨1, 0, 5040, 0, 5040, 240, [⟨1, 2, 2800, 0, 1000⟩]⟩], [⟨1, -2, .sale⟩]⟩
      (fun p => { p with cost_price := 2500 })).orders =
    (DB.mk [⟨1, "M", none, 2800, 2400, 0, 3⟩] [⟨1, "c", "p"⟩]
      [⟨1, 0, 5040, 0, 5040, 240, [⟨1, 2, 2800, 0, 1000⟩]⟩]
      [⟨1, -2, .sale⟩]).orders :=
  (c8_recompute_snapshot ⟨[⟨1, "M", none, 2800, 2400, 0, 5⟩], [], [], []⟩
    [⟨1, 2, 1000⟩] 0 "p" "c"
    ⟨[⟨1, "M", none, 2800, 2400, 0, 3⟩], [⟨1, "c", "p"⟩],
      [⟨1, 0, 5040, 0, 5040, 240, [⟨1, 2, 2800, 0, 1000⟩]⟩], [⟨1, -2, .sale⟩]⟩
    [] ⟨1, 0, 5040, 0, 5040, 240, [⟨1, 2, 2800, 0, 1000⟩]⟩ (by decide)
    (fun p => { p with cost_price := 2500 })).1

/-- C9: with a non-empty barcode/SKU token the product is resolved by the
combined query `filter((barcode==tok)|(sku==tok)).first()` (line 772),
which SQLite executes as a multi-index OR over the two unique indexes,
emitting barcode matches before SKU matches: whenever the token equals one
product's (unique) barcode, that product is returned even when a different
product's SKU also matches — concretely, with row 1 carrying SKU "X" and
row 2 carrying barcode "X", resolving "X" returns row 2; any resolved
product matches the token on barcode or SKU; the explicit product id is
ignored whenever a token is given; and a resolution or validation failure
leaves the cart unchanged. -/
theorem c9_lookup :
    (∀ (ps : List Product) (tok : String) (p : Product),
      (∀ q ∈ ps, q.barcode = some tok → q = p) → p ∈ ps →
      p.barcode = some tok → findByBarcodeOrSku ps tok = some p) ∧
    (∀ (ps : List Product) (tok : String) (p : Product),
      findByBarcodeOrSku ps tok = some p →
        p.barcode = some tok ∨ p.sku = tok) ∧
    findByBarcodeOrSku
        [⟨1, "X", some "B1", 1000, 800, 0, 5⟩, ⟨2, "S2", some "X", 1000, 800, 0, 5⟩]
        "X" = some ⟨2, "S2", some "X", 1000, 800, 0, 5⟩ ∧
    (∀ (ps : List Product) (cart : List CartLine) (tok : String)
      (pid : Nat) (qty disc : ℤ) (c : List CartLine) (r : AddLineErr),
      addLine ps cart tok pid qty disc = .err c r → c = cart) ∧
    (∀ (ps : List Product) (cart : List CartLine) (tok : String)
      (pid pid' : Nat) (qty disc : ℤ), tok ≠ "" →
      addLine ps cart tok pid qty disc = addLine ps cart tok pid' qty disc) := by
  refine ⟨?_, ?_, by decide, ?_, ?_⟩
  · intro ps tok p huniq hmem hbar
    unfold findByBarcodeOrSku
    cases hf : ps.find? (fun q => q.barcode == some tok) with
    | none =>
      exfalso
      have hnone := List.find?_eq_none.mp hf p hmem
      simp only [beq_iff_eq] at hnone
      exact hnone hbar
    | some r =>
      have h1 := List.find?_some hf
      have h2 := List.mem_of_find?_eq_some hf
      simp only [beq_iff_eq] at h1
      show some r = some p
      rw [huniq r h2 h1]
  · intro ps tok p h
    unfold findByBarcodeOrSku at h
    cases hf : ps.find? (fun q => q.barcode == some tok) with
    | some r =>
      simp only [hf, Option.some.injEq] at h
      have h1 := List.find?_some hf
      simp only [beq_iff_eq] at h1
      exact Or.inl (h ▸ h1)
    | none =>
      simp only [hf] at h
      have h1 := List.find?_some h
      simp only [beq_iff_eq] at h1
      exact Or.inr h1
  · intro ps cart tok pid qty disc c r h
    unfold addLine at h
    by_cases htok : tok = ""
    · rw [if_pos htok] at h
      cases hf : findProduct ps pid with
      | none =>
        simp only [hf, AddLineResult.err.injEq] at h
        exact h.1.symm
      | some prod =>
        simp only [hf] at h
        unfold addLineChecked at h
        by_cases h1 : qty ≤ 0
        · rw [if_pos h1] at h
          simp only [AddLineResult.err.injEq] at h
          exact h.1.symm
        · rw [if_neg h1] at h
          by_cases h2 : prod.stock_qty < qty
          · rw [if_pos h2] at h
            simp only [AddLineResult.err.injEq] at h
            exact h.1.symm
          · rw [if_neg h2] at h
            exact absurd h (by simp)
    · rw [if_neg htok] at h
      cases hf : findByBarcodeOrSku ps tok with
      | none =>
        simp only [hf, AddLineResult.err.injEq] at h
        exact h.1.symm
      | some prod =>
        simp only [hf] at h
        unfold addLineChecked at h
        by_cases h1 : qty ≤ 0
        · rw [if_pos h1] at h
          simp only [AddLineResult.err.injEq] at h
          exact h.1.symm
        · rw [if_neg h1] at h
          by_cases h2 : prod.stock_qty < qty
          · rw [if_pos h2] at h
            simp only [AddLineResult.err.injEq] at h
            exact h.1.symm
          · rw [if_neg h2] at h
            exact absurd h (by simp)
  · intro ps cart tok pid pid' qty disc htok
    unfold addLine
    simp only [if_neg htok]

theorem c9_lookup_witness :
    findByBarcodeOrSku
        [⟨1, "X", some "B1", 1000, 800, 0, 5⟩, ⟨2, "S2", some "X", 1000, 800, 0, 5⟩]
        "X" = some ⟨2, "S2", some "X", 1000, 800, 0, 5⟩ :=
  c9_lookup.1
    [⟨1, "X", some "B1", 1000, 800, 0, 5⟩, ⟨2, "S2", some "X", 1000, 800, 0, 5⟩]
    "X" ⟨2, "S2", some "X", 1000, 800, 0, 5⟩ (by decide) (by decide) (by decide)

/-- C10: `OrderItem.line_profit` reads the referenced product's current
`cost_price` (not a stored snapshot):
`line_profit = round((unit_price − cost_price)·quantity − line_discount_amount)`
for whatever cost price the catalog currently holds.  A committed order
whose profit was summed at cost 24.00 records 2.40, while recomputing the
same item after the cost changes to 25.00 yields 0.40 — unlike `unit_price`
and `gst_rate`, the cost price is not captured on the `OrderItem`. -/
theorem c10_profit_reads_current_cost :
    (∀ (it : OrderItem) (cost_price : ℤ),
      it.line_profit cost_price =
        money ((it.unit_price - cost_price) * it.quantity -
          it.line_discount_amount) 100) ∧
    (checkout ⟨[⟨1, "M", none, 2800, 2400, 0, 5⟩], [], [], []⟩ [⟨1, 2, 1000⟩]
      0 "p" "c").profitOf = some 240 ∧
    OrderItem.line_profit ⟨1, 2, 2800, 0, 1000⟩ 2400 = 240 ∧
    OrderItem.line_profit ⟨1, 2, 2800, 0, 1000⟩ 2500 = 40 ∧
    (240 : ℤ) ≠ 40 :=
  ⟨fun it cost_price => rfl, by decide, by decide, by decide, by decide⟩
